import Mathlib

/-
Verification development for the remote-testing-tools server.

The embedding follows the source:
  - modules/server/src/routes/gemini.ts  (the /gemini/ask route handler)
  - modules/server/src/lib/cleanup.ts    (cleanupOrphanedDirectories)
  - modules/server/src/lib/queue.ts      (TaskQueue over p-queue)
  - modules/server/src/lib/config.ts     (serverConfig from CLI/env values)
  - modules/server/src/index.ts          (start sequence)

Filesystem paths are modelled as an absolute flag plus a segment list;
node's path.join is modelled by segment concatenation followed by the
usual dot-dot normalization, which is exactly what path.join performs on
the joined string.  Effects (mkdtemp, writeFile, execa, rm) are driven by
an environment record that fixes each call's outcome, and every run
produces an event trace so that resource lifecycle facts are statements
about the trace.
-/

namespace RemoteTestingTools

/-- A filesystem path: node path strings are split on the separator; we
keep the absolute flag and the list of segments. -/
structure Path where
  absolute : Bool
  segs : List String
deriving Repr, DecidableEq

/-- Split a character list at every slash. -/
def splitSlashAux : List Char → List Char → List (List Char)
  | [], cur => [cur.reverse]
  | c :: cs, cur =>
    if c = '/' then cur.reverse :: splitSlashAux cs [] else splitSlashAux cs (c :: cur)

/-- Model of s.split on the path separator (String.splitOn with "/"). -/
def splitOnSlash (s : String) : List String :=
  (splitSlashAux s.data []).map String.mk

/-- A whitespace character as JS trim sees it (the common subset). -/
def isWsChar (c : Char) : Bool :=
  c = ' ' ∨ c = '\t' ∨ c = '\n' ∨ c = '\r'

/-- Model of JS String.prototype.trim: strip leading and trailing
whitespace. -/
def strTrim (s : String) : String :=
  String.mk (((s.data.dropWhile isWsChar).reverse.dropWhile isWsChar).reverse)

/-- Model of String.prototype.startsWith. -/
def strStartsWith (s pre : String) : Bool :=
  s.data.take pre.data.length == pre.data

/-- One normalization step of node's path normalization: empty and dot
segments are dropped, a dot-dot segment pops the previous segment (at the
root of an absolute path it is discarded, for a relative path it is
kept).  The accumulator holds the processed segments in reverse order. -/
def normStep (absolute : Bool) (acc : List String) (seg : String) : List String :=
  if seg = "" ∨ seg = "." then acc
  else if seg = ".." then
    match acc with
    | [] => if absolute then [] else [".."]
    | top :: rest => if top = ".." then seg :: acc else rest
  else seg :: acc

/-- Model of node path.join(p, rel): concatenate, then normalize the
whole path.  An absolute-looking second argument is treated as relative,
exactly as path.join does. -/
def Path.join (p : Path) (rel : String) : Path :=
  ⟨p.absolute, ((p.segs ++ splitOnSlash rel).foldl (normStep p.absolute) []).reverse⟩

/-- Whether path q lies strictly inside directory d: same absoluteness,
d's segments are a proper leading part of q's segments. -/
def Path.inside (q d : Path) : Bool :=
  (q.absolute == d.absolute)
    && (q.segs.take d.segs.length == d.segs)
    && decide (d.segs.length < q.segs.length)

/-- Value of one base64 alphabet character, none for characters outside
the alphabet (node's Buffer.from(s, base64) skips those). -/
def base64Val (c : Char) : Option Nat :=
  if 'A' ≤ c ∧ c ≤ 'Z' then some (c.toNat - 65)
  else if 'a' ≤ c ∧ c ≤ 'z' then some (c.toNat - 97 + 26)
  else if '0' ≤ c ∧ c ≤ '9' then some (c.toNat - 48 + 52)
  else if c = '+' then some 62
  else if c = '/' then some 63
  else none

/-- Pack a list of 6-bit values into 8-bit bytes, dropping trailing
partial bits, as base64 decoding does. -/
def sextetsToBytes : List Nat → List Nat
  | a :: b :: c :: d :: rest =>
      (a * 4 + b / 16) :: ((b % 16) * 16 + c / 4) :: ((c % 4) * 64 + d) :: sextetsToBytes rest
  | [a, b, c] => [a * 4 + b / 16, (b % 16) * 16 + c / 4]
  | [a, b] => [a * 4 + b / 16]
  | _ => []

/-- Model of Buffer.from(data, base64): decode leniently, ignoring
characters outside the alphabet (including padding). -/
def bufferFromBase64 (s : String) : List Nat :=
  sextetsToBytes (s.data.filterMap base64Val)

/-- One file attachment of the request body (fileName, base64 data). -/
structure Attachment where
  fileName : String
  data : String
deriving Repr, DecidableEq

/-- Outcome of the execa call, as seen by the route handler: execa
resolves only on exit code 0; every rejection — non-zero exit, timeout
or signal kill, and a spawn failure such as a missing binary — is built
by execa's makeError, which always assigns the error's exitCode field
(its value is undefined for kills and spawn failures), so every execa
rejection carries that field. -/
inductive ExecaOutcome where
  | resolved (stdout stderr : String)
  | failed (stdout stderr : String) (exitCode : Option Int) (message : String)
deriving Repr, DecidableEq

/-- A thrown JS value reaching the route's catch block: either an execa
rejection, which always carries an exitCode field, or a plain error from
mkdtemp or writeFile, which has no such field. -/
inductive JsError where
  | plain (message : String)
  | execaErr (stdout stderr : String) (exitCode : Option Int) (message : String)
deriving Repr, DecidableEq

/-- The resolved value of a successful execa call (exit code 0). -/
structure ExecaResult where
  stdout : String
  stderr : String
  exitCode : Int
deriving Repr, DecidableEq

/-- Event trace of one invocation task: directory creation, attachment
writes, the external process start, directory removal, and the warning
logged when removal fails. -/
inductive FsEvent where
  | mkdirCreated (dir : Path)
  | writeFile (path : Path) (bytes : List Nat)
  | execStart (cmd : String) (args : List String) (stdin : String) (cwd : Path) (timeoutMs : Nat)
  | removeDir (dir : Path)
  | warnCleanupFailed (dir : Path)
deriving Repr, DecidableEq

/-- Environment fixing the outcome of each effectful call inside one
invocation task. -/
structure FsEnv where
  tmpRoot : Path
  mkdtempSuffix : Except String String
  writeErr : Attachment → Option String
  execa : ExecaOutcome
  rmErr : Option String

/-- The per-invocation timeout passed to execa (route, line 96): the
literal 30000, not the configured requestTimeout. -/
def geminiTimeoutMs : Nat := 30000

/-- The fixed argument list passed to execa (route, line 90). -/
def geminiArgs : List String := ["--sandbox"]

/-- The attachment write loop (route, lines 82-85): write each file in
order to join(tempDir, fileName); the first throwing write aborts the
loop and its message propagates. -/
def writeOutcome (env : FsEnv) (tempDir : Path) : List Attachment → List FsEvent × Option String
  | [] => ([], none)
  | f :: rest =>
    match env.writeErr f with
    | some msg => ([], some msg)
    | none =>
      let r := writeOutcome env tempDir rest
      (FsEvent.writeFile (tempDir.join f.fileName) (bufferFromBase64 f.data) :: r.1, r.2)

/-- The attachment reference line joined with spaces (route, line 86). -/
def fileRefs (files : List Attachment) : String :=
  String.intercalate " " (files.map (fun f => "@" ++ f.fileName))

/-- Prompt augmentation (route, lines 86-88): only when at least one file
is attached, prepend the fixed-format reference line and a blank line. -/
def augmentedPrompt (prompt : String) (files : List Attachment) : String :=
  if files.isEmpty then prompt
  else "Here are the user provided files for context: " ++ fileRefs files ++ "\n\n" ++ prompt

/-- The finally block (route, lines 106-116): tempDir is defined, so rm
is attempted exactly once; an rm failure is caught and logged as a
warning. -/
def finallyEvents (env : FsEnv) (tempDir : Path) : List FsEvent :=
  match env.rmErr with
  | none => [FsEvent.removeDir tempDir]
  | some _ => [FsEvent.removeDir tempDir, FsEvent.warnCleanupFailed tempDir]

/-- The body of the task after mkdtemp succeeded (route, lines 81-116):
write attachments, augment the prompt, run execa with stdin, fixed args,
cwd tempDir and the hardcoded timeout; the finally block always runs. -/
def runTaskInDir (env : FsEnv) (prompt : String) (files : List Attachment) (tempDir : Path) :
    List FsEvent × Except JsError ExecaResult :=
  match (writeOutcome env tempDir files).2 with
  | some msg =>
      (FsEvent.mkdirCreated tempDir :: (writeOutcome env tempDir files).1 ++ finallyEvents env tempDir,
       Except.error (JsError.plain msg))
  | none =>
      let stdin := augmentedPrompt prompt files
      let execEv := FsEvent.execStart "gemini" geminiArgs stdin tempDir geminiTimeoutMs
      match env.execa with
      | ExecaOutcome.resolved out err =>
          (FsEvent.mkdirCreated tempDir :: (writeOutcome env tempDir files).1 ++ [execEv] ++ finallyEvents env tempDir,
           Except.ok ⟨out, err, 0⟩)
      | ExecaOutcome.failed out err code msg =>
          (FsEvent.mkdirCreated tempDir :: (writeOutcome env tempDir files).1 ++ [execEv] ++ finallyEvents env tempDir,
           Except.error (JsError.execaErr out err code msg))

/-- The task submitted to the queue (route, lines 73-117): mkdtemp under
the scratch root with the fixed gemini- name start; if mkdtemp throws,
tempDir stays undefined, the finally block removes nothing, and the
error propagates. -/
def runTask (env : FsEnv) (prompt : String) (files : List Attachment) :
    List FsEvent × Except JsError ExecaResult :=
  match env.mkdtempSuffix with
  | Except.error e => ([], Except.error (JsError.plain e))
  | Except.ok suf => runTaskInDir env prompt files (env.tmpRoot.join ("gemini-" ++ suf))

/-- The 200 response body (route, lines 119-137): output, exitCode,
stderr only when non-empty, error only on a caught execa failure. -/
structure GeminiResponse where
  output : String
  exitCode : Int
  stderr : Option String
  error : Option String
deriving Repr, DecidableEq

/-- The reply produced by the route: a 200 body, the handler's 400, a
schema-validation 400 produced by fastify itself, or a 500. -/
inductive Reply where
  | ok (r : GeminiResponse)
  | badRequest (error : String)
  | schemaViolation
  | serverError (error : String)
deriving Repr, DecidableEq

/-- JS falsy-or-default on the caught error's exitCode field (route,
line 133): undefined or 0 becomes 1. -/
def jsOr1 : Option Int → Int
  | some c => if c = 0 then 1 else c
  | none => 1

/-- JS s-or-undefined (route, lines 122 and 134): the empty string is
falsy and becomes an absent field. -/
def strOrUndef (s : String) : Option String :=
  if s = "" then none else some s

/-- Response construction and the catch block (route, lines 119-142): a
resolved execa gives a 200 with no error field; a rejection carrying an
exitCode field gives a 200 with partial output and the error message; any
other error gives a 500 with only the message. -/
def replyOf : Except JsError ExecaResult → Reply
  | Except.ok res => Reply.ok ⟨res.stdout, res.exitCode, strOrUndef res.stderr, none⟩
  | Except.error (JsError.execaErr out err code msg) =>
      Reply.ok ⟨out, jsOr1 code, strOrUndef err, some msg⟩
  | Except.error (JsError.plain msg) => Reply.serverError msg

/-- A JSON value in the prompt position of the request body. -/
inductive JVal where
  | jstr (s : String)
  | jnum (n : Int)
  | jbool (b : Bool)
  | jnull
deriving Repr, DecidableEq

/-- Fastify's default ajv coercion for a schema-typed string field:
strings pass through, numbers and booleans are converted with JS String,
null fails validation. -/
def ajvCoerceToString : JVal → Option String
  | JVal.jstr s => some s
  | JVal.jnum n => some (toString n)
  | JVal.jbool b => some (if b then "true" else "false")
  | JVal.jnull => none

/-- The whole route behaviour for one request (route, lines 65-143):
schema coercion, the handler's emptiness check, the queued task, and the
response mapping. -/
def handleAsk (env : FsEnv) (promptField : Option JVal) (files : List Attachment) :
    List FsEvent × Reply :=
  match promptField with
  | none => ([], Reply.badRequest "Prompt is required and must be a non-empty string")
  | some v =>
    match ajvCoerceToString v with
    | none => ([], Reply.schemaViolation)
    | some prompt =>
      if strTrim prompt = "" then
        ([], Reply.badRequest "Prompt is required and must be a non-empty string")
      else
        ((runTask env prompt files).1, replyOf (runTask env prompt files).2)

/-- Model of JS parseInt(s, 10): skip leading whitespace, take an
optional sign and then the longest run of decimal digits; none models
NaN. -/
def jsParseInt10 (s : String) : Option Int :=
  let core := fun (l : List Char) (sign : Int) =>
    let ds := l.takeWhile (fun c => decide ('0' ≤ c) && decide (c ≤ '9'))
    if ds.isEmpty then none
    else some (sign * Int.ofNat (ds.foldl (fun a c => a * 10 + (c.toNat - 48)) 0))
  match (strTrim s).data with
  | '-' :: rest => core rest (-1)
  | '+' :: rest => core rest 1
  | cs => core cs 1

/-- The parsed server configuration (config.ts, lines 30-35), built from
the CLI/env option strings; none models a NaN field. -/
structure ServerConfig where
  port : Option Int
  host : String
  maxConcurrentRequests : Option Int
  requestTimeout : Option Int
deriving Repr, DecidableEq

/-- serverConfig construction (config.ts, lines 30-35). -/
def mkServerConfig (portArg hostArg maxConcurrentArg requestTimeoutArg : String) : ServerConfig :=
  ⟨jsParseInt10 portArg, hostArg, jsParseInt10 maxConcurrentArg, jsParseInt10 requestTimeoutArg⟩

/-- TaskQueue construction (queue.ts): the p-queue concurrency is the
constructor argument, defaulting to 5. -/
def taskQueueConcurrency (c : Option Nat) : Nat := c.getD 5

/-- The process-wide queue (queue.ts, last line): new TaskQueue() with no
argument, so its concurrency is the default 5 whatever the configuration
says. -/
def defaultQueueConcurrency : Nat := taskQueueConcurrency none

/-- Environment of one startup cleanup pass: the readdir outcome over the
scratch root and which individual removals fail. -/
structure CleanupEnv where
  readdirResult : Except String (List String)
  rmFails : String → Bool

/-- cleanupOrphanedDirectories (cleanup.ts, lines 5-33): list the scratch
root, keep the entries whose names start with gemini-, return early when
none match, otherwise attempt to remove each matching entry
independently, recording whether that removal succeeded; per-entry
failures are caught and logged, and a readdir failure is caught at the
top level. -/
def cleanupOrphanedDirectories (env : CleanupEnv) (tmpRoot : Path) : List (Path × Bool) :=
  match env.readdirResult with
  | Except.error _ => []
  | Except.ok entries =>
    let geminiDirs := entries.filter (fun e => strStartsWith e "gemini-")
    if geminiDirs.isEmpty then []
    else geminiDirs.map (fun d => (tmpRoot.join d, ! env.rmFails d))

/-- The phases of the server start function (index.ts, lines 5-14). -/
inductive StartupEvent where
  | cleanupOrphans
  | buildApp
  | listen
deriving Repr, DecidableEq

/-- The order of awaited steps in start (index.ts, lines 5-14): the
orphan cleanup pass completes before the app is built and before it
starts listening. -/
def startSequence : List StartupEvent :=
  [StartupEvent.cleanupOrphans, StartupEvent.buildApp, StartupEvent.listen]

/-- The phases of one queued invocation task (route, lines 73-117): the
closure handed to defaultQueue.add spans directory creation, attachment
writing, the external process run and the finally-block teardown, so a
concurrency slot is held for the full lifecycle. -/
inductive TaskPhase where
  | createDir
  | writeAttachments
  | runProcess
  | teardown
deriving Repr, DecidableEq

/-- The full phase list of one invocation task. -/
def invocationPhases : List TaskPhase :=
  [TaskPhase.createDir, TaskPhase.writeAttachments, TaskPhase.runProcess, TaskPhase.teardown]

/-- A task currently holding a concurrency slot, with its remaining
phases. -/
structure RunningTask where
  id : Nat
  remaining : List TaskPhase
deriving Repr, DecidableEq

/-- State of the admission queue (p-queue behind TaskQueue): tasks
waiting in submission order, tasks currently holding a slot, finished
tasks. -/
structure QueueState where
  waiting : List Nat
  running : List RunningTask
  finished : List Nat
deriving Repr, DecidableEq

/-- Small-step semantics of the admission queue with concurrency c: the
head of the waiting list may start only when fewer than c tasks hold a
slot; a running task may advance through its phases; a task frees its
slot only after its last phase (teardown) is done. -/
inductive QStep (c : Nat) : QueueState → QueueState → Prop
  | start (id : Nat) (w f : List Nat) (r : List RunningTask) (h : r.length < c) :
      QStep c ⟨id :: w, r, f⟩ ⟨w, r ++ [⟨id, invocationPhases⟩], f⟩
  | advance (w f : List Nat) (pre post : List RunningTask) (id : Nat)
      (ph : TaskPhase) (more : List TaskPhase) :
      QStep c ⟨w, pre ++ ⟨id, ph :: more⟩ :: post, f⟩ ⟨w, pre ++ ⟨id, more⟩ :: post, f⟩
  | finish (w f : List Nat) (pre post : List RunningTask) (id : Nat) :
      QStep c ⟨w, pre ++ ⟨id, []⟩ :: post, f⟩ ⟨w, pre ++ post, f ++ [id]⟩

/-- Reachability of queue states from an initial state by queue steps. -/
inductive QReachable (c : Nat) (init : QueueState) : QueueState → Prop
  | refl : QReachable c init init
  | step {s t : QueueState} : QReachable c init s → QStep c s t → QReachable c init t

/-- The state right after N simultaneous submissions: all tasks waiting,
none running or finished. -/
def initialState (ids : List Nat) : QueueState := ⟨ids, [], []⟩

/-! Helper definitions and lemmas shared by the claim theorems. -/

/-- Event classifier: directory creation. -/
def isMkdirEv : FsEvent → Bool
  | FsEvent.mkdirCreated _ => true
  | _ => false

/-- Event classifier: directory removal attempt. -/
def isRemoveEv : FsEvent → Bool
  | FsEvent.removeDir _ => true
  | _ => false

/-- Event classifier: external process start. -/
def isExecEv : FsEvent → Bool
  | FsEvent.execStart _ _ _ _ _ => true
  | _ => false

/-- A concrete environment where everything succeeds and the tool prints
pong. -/
def pongEnv : FsEnv :=
  { tmpRoot := ⟨true, ["tmp"]⟩,
    mkdtempSuffix := Except.ok "abc123",
    writeErr := fun _ => none,
    execa := ExecaOutcome.resolved "pong" "",
    rmErr := none }

/-- The working directory created in pongEnv. -/
def gdir : Path := ⟨true, ["tmp", "gemini-abc123"]⟩

theorem writeOutcome_mem_shape (env : FsEnv) (td : Path) (fs : List Attachment) :
    ∀ ev ∈ (writeOutcome env td fs).1, ∃ pth bs, ev = FsEvent.writeFile pth bs := by
  induction fs with
  | nil => simp [writeOutcome]
  | cons f rest ih =>
    intro ev hev
    cases h : env.writeErr f with
    | some msg => simp [writeOutcome, h] at hev
    | none =>
      simp only [writeOutcome, h, List.mem_cons] at hev
      rcases hev with hev | hev
      · exact ⟨_, _, hev⟩
      · exact ih ev hev

theorem writeOutcome_countP (env : FsEnv) (td : Path) (fs : List Attachment)
    (q : FsEvent → Bool) (hq : ∀ pth bs, q (FsEvent.writeFile pth bs) = false) :
    (writeOutcome env td fs).1.countP q = 0 := by
  induction fs with
  | nil => simp [writeOutcome]
  | cons f rest ih =>
    cases h : env.writeErr f with
    | some msg => simp [writeOutcome, h]
    | none => simp [writeOutcome, h, List.countP_cons, hq, ih]

theorem writeOutcome_none (env : FsEnv) (td : Path) (fs : List Attachment)
    (hw : ∀ f ∈ fs, env.writeErr f = none) :
    (writeOutcome env td fs).2 = none := by
  induction fs with
  | nil => simp [writeOutcome]
  | cons f rest ih =>
    have h := hw f (by simp)
    have hrest : ∀ g ∈ rest, env.writeErr g = none := fun g hg => hw g (by simp [hg])
    simp [writeOutcome, h, ih hrest]

theorem finallyEvents_countP (env : FsEnv) (td : Path) (q : FsEvent → Bool)
    (h1 : q (FsEvent.removeDir td) = false) (h2 : q (FsEvent.warnCleanupFailed td) = false) :
    (finallyEvents env td).countP q = 0 := by
  cases h : env.rmErr <;> simp [finallyEvents, h, List.countP_cons, h1, h2]

theorem finallyEvents_remove_count (env : FsEnv) (td : Path) :
    (finallyEvents env td).countP isRemoveEv = 1 := by
  cases h : env.rmErr <;> simp [finallyEvents, h, List.countP_cons, isRemoveEv]

theorem handleAsk_eq (env : FsEnv) (p : String) (files : List Attachment)
    (hp : ¬ strTrim p = "") :
    handleAsk env (some (JVal.jstr p)) files
      = ((runTask env p files).1, replyOf (runTask env p files).2) := by
  simp [handleAsk, ajvCoerceToString, hp]

/-! Claim theorems. -/

/-- C2: for every accepted invocation whose directory creation succeeds,
exactly one working directory creation and exactly one removal appear in
the trace, on every outcome, and the removed directory is the created
one; if directory creation fails, the task yields the thrown error
instead of a result, never starts the external tool, and attempts no
removal. -/
theorem working_directory_lifecycle (env : FsEnv) (p : String) (files : List Attachment) :
    (∀ suf, env.mkdtempSuffix = Except.ok suf →
        (runTask env p files).1.countP isMkdirEv = 1
      ∧ (runTask env p files).1.countP isRemoveEv = 1
      ∧ FsEvent.mkdirCreated (env.tmpRoot.join ("gemini-" ++ suf)) ∈ (runTask env p files).1
      ∧ FsEvent.removeDir (env.tmpRoot.join ("gemini-" ++ suf)) ∈ (runTask env p files).1)
  ∧ (∀ e, env.mkdtempSuffix = Except.error e →
        (runTask env p files).2 = Except.error (JsError.plain e)
      ∧ (runTask env p files).1.countP isExecEv = 0
      ∧ (runTask env p files).1.countP isRemoveEv = 0) := by
  constructor
  · intro suf hsuf
    have hmk : runTask env p files = runTaskInDir env p files (env.tmpRoot.join ("gemini-" ++ suf)) := by
      simp [runTask, hsuf]
    rw [hmk]
    generalize env.tmpRoot.join ("gemini-" ++ suf) = td
    have hw0 : (writeOutcome env td files).1.countP isMkdirEv = 0 :=
      writeOutcome_countP _ _ _ _ (fun pth bs => rfl)
    have hw1 : (writeOutcome env td files).1.countP isRemoveEv = 0 :=
      writeOutcome_countP _ _ _ _ (fun pth bs => rfl)
    have hf0 : (finallyEvents env td).countP isMkdirEv = 0 :=
      finallyEvents_countP _ _ _ rfl rfl
    have hf1 : (finallyEvents env td).countP isRemoveEv = 1 :=
      finallyEvents_remove_count _ _
    have hrm : FsEvent.removeDir td ∈ finallyEvents env td := by
      cases h : env.rmErr <;> simp [finallyEvents, h]
    cases hw : (writeOutcome env td files).2 with
    | some msg =>
      refine ⟨?_, ?_, ?_, ?_⟩ <;>
        simp [runTaskInDir, hw, List.countP_cons, List.countP_append, hw0, hw1, hf0, hf1,
              isMkdirEv, isRemoveEv, hrm]
    | none =>
      cases hex : env.execa <;>
        refine ⟨?_, ?_, ?_, ?_⟩ <;>
          simp [runTaskInDir, hw, hex, List.countP_cons, List.countP_append, hw0, hw1, hf0, hf1,
                isMkdirEv, isRemoveEv, isExecEv, hrm]
  · intro e he
    simp [runTask, he, isExecEv, isRemoveEv]

/-- C2 witness at a concrete succeeding environment. -/
theorem working_directory_lifecycle_witness :
    (runTask pongEnv "ping" []).1.countP isMkdirEv = 1
  ∧ (runTask pongEnv "ping" []).1.countP isRemoveEv = 1
  ∧ FsEvent.mkdirCreated (pongEnv.tmpRoot.join ("gemini-" ++ "abc123")) ∈ (runTask pongEnv "ping" []).1
  ∧ FsEvent.removeDir (pongEnv.tmpRoot.join ("gemini-" ++ "abc123")) ∈ (runTask pongEnv "ping" []).1 :=
  (working_directory_lifecycle pongEnv "ping" []).1 "abc123" rfl

/-- C3: every external process start in any invocation trace uses command
gemini with argument list exactly the fixed sandbox flag; with the
example attachment and instruction, the stdin payload is the augmented
string and the decoded attachment is written into the working directory
before the process starts; with no attachments the stdin payload is the
bare instruction. -/
theorem tool_invocation_contract :
    (∀ (env : FsEnv) (p : String) (files : List Attachment) (c : String) (a : List String)
        (i : String) (cw : Path) (t : Nat),
        FsEvent.execStart c a i cw t ∈ (runTask env p files).1 → c = "gemini" ∧ a = ["--sandbox"])
  ∧ (runTask pongEnv "summarize" [⟨"a.txt", "aGk="⟩]).1
      = [FsEvent.mkdirCreated gdir,
         FsEvent.writeFile (gdir.join "a.txt") [104, 105],
         FsEvent.execStart "gemini" ["--sandbox"]
           "Here are the user provided files for context: @a.txt\n\nsummarize" gdir 30000,
         FsEvent.removeDir gdir]
  ∧ (runTask pongEnv "ping" []).1
      = [FsEvent.mkdirCreated gdir,
         FsEvent.execStart "gemini" ["--sandbox"] "ping" gdir 30000,
         FsEvent.removeDir gdir] := by
  refine ⟨?_, by decide, by decide⟩
  intro env p files c a i cw t hmem
  cases hmk : env.mkdtempSuffix with
  | error e => simp [runTask, hmk] at hmem
  | ok suf =>
    rw [show runTask env p files = runTaskInDir env p files (env.tmpRoot.join ("gemini-" ++ suf)) by
          simp [runTask, hmk]] at hmem
    generalize htd : env.tmpRoot.join ("gemini-" ++ suf) = td at hmem
    have hshape := writeOutcome_mem_shape env td files
    have hfin : FsEvent.execStart c a i cw t ∉ finallyEvents env td := by
      cases h : env.rmErr <;> simp [finallyEvents, h]
    have hwr : FsEvent.execStart c a i cw t ∉ (writeOutcome env td files).1 := by
      intro h
      obtain ⟨pth, bs, hh⟩ := hshape _ h
      simp at hh
    cases hw : (writeOutcome env td files).2 with
    | some msg =>
      simp only [runTaskInDir, hw] at hmem
      rw [List.mem_append, List.mem_cons] at hmem
      rcases hmem with (h | h) | h
      · simp at h
      · exact absurd h hwr
      · exact absurd h hfin
    | none =>
      cases hex : env.execa <;>
        · simp only [runTaskInDir, hw, hex] at hmem
          rw [List.mem_append, List.mem_append, List.mem_cons] at hmem
          rcases hmem with ((h | h) | h) | h
          · simp at h
          · exact absurd h hwr
          · rw [List.mem_singleton, FsEvent.execStart.injEq] at h
            exact ⟨h.1, h.2.1⟩
          · exact absurd h hfin

/-- C3 witness: the universally quantified conjunct applied to the
concrete no-attachment run. -/
theorem tool_invocation_contract_witness :
    "gemini" = "gemini" ∧ ["--sandbox"] = ["--sandbox"] :=
  tool_invocation_contract.1 pongEnv "ping" [] "gemini" ["--sandbox"] "ping" gdir 30000 (by decide)

/-- A concrete environment where the tool exits 127 with stderr, so
execa rejects with an error carrying an exitCode field. -/
def fail127Env : FsEnv :=
  { tmpRoot := ⟨true, ["tmp"]⟩,
    mkdtempSuffix := Except.ok "abc123",
    writeErr := fun _ => none,
    execa := ExecaOutcome.failed "" "gemini: not found" (some 127)
      "Command failed with exit code 127: gemini --sandbox",
    rmErr := none }

/-- A concrete environment where the process cannot be spawned at all:
execa's makeError builds the rejection, so the error carries an exitCode
field whose value is undefined. -/
def enoentEnv : FsEnv :=
  { tmpRoot := ⟨true, ["tmp"]⟩,
    mkdtempSuffix := Except.ok "abc123",
    writeErr := fun _ => none,
    execa := ExecaOutcome.failed "" "" none "spawn gemini ENOENT",
    rmErr := none }

/-- A concrete environment where the run succeeds but removing the
working directory fails. -/
def pongRmFailEnv : FsEnv :=
  { tmpRoot := ⟨true, ["tmp"]⟩,
    mkdtempSuffix := Except.ok "abc123",
    writeErr := fun _ => none,
    execa := ExecaOutcome.resolved "pong" "",
    rmErr := some "EACCES" }

/-- C4: exit code 0 with stdout pong and empty stderr maps to a 200 body
with output pong, exitCode 0, no stderr field and no error field; a
non-zero exit such as 127 maps to a 200 body carrying the captured
stderr, exit code 127 and a non-empty error message; and in general
every execa rejection that carries an exitCode field maps to a 200 body
with the captured partial output, the falsy-defaulted exit code and the
error message — never a raised failure. -/
theorem outcome_mapping :
    (handleAsk pongEnv (some (JVal.jstr "ping")) []).2 = Reply.ok ⟨"pong", 0, none, none⟩
  ∧ ((handleAsk fail127Env (some (JVal.jstr "ping")) []).2
      = Reply.ok ⟨"", 127, some "gemini: not found",
          some "Command failed with exit code 127: gemini --sandbox"⟩
      ∧ "Command failed with exit code 127: gemini --sandbox" ≠ "")
  ∧ (∀ (env : FsEnv) (p : String) (files : List Attachment)
        (out err : String) (ec : Option Int) (m : String),
        ¬ strTrim p = "" →
        (runTask env p files).2 = Except.error (JsError.execaErr out err ec m) →
        (handleAsk env (some (JVal.jstr p)) files).2
          = Reply.ok ⟨out, jsOr1 ec, strOrUndef err, some m⟩) := by
  refine ⟨by decide, ⟨by decide, by decide⟩, ?_⟩
  intro env p files out err ec m hp hres
  rw [handleAsk_eq env p files hp, hres]
  rfl

/-- C4 witness: the general mapping conjunct applied to the concrete
exit-127 environment. -/
theorem outcome_mapping_witness :
    (handleAsk fail127Env (some (JVal.jstr "ping")) []).2
      = Reply.ok ⟨"", jsOr1 (some 127), strOrUndef "gemini: not found",
          some "Command failed with exit code 127: gemini --sandbox"⟩ :=
  outcome_mapping.2.2 fail127Env "ping" [] "" "gemini: not found" (some 127)
    "Command failed with exit code 127: gemini --sandbox" (by decide) rfl

/-- C6: when the external tool cannot be launched at all, execa rejects
with a makeError-built error whose exitCode field exists with an
undefined value, so the catch block's exitCode-presence check routes it
to the 200 branch: the route answers 200 with exit code 1 (undefined
falsy-defaulted) and the spawn message — not the 500 reply the spec
requires for a startup failure. -/
theorem startup_error_returns_200 :
    (handleAsk enoentEnv (some (JVal.jstr "ping")) []).2
      = Reply.ok ⟨"", 1, none, some "spawn gemini ENOENT"⟩
  ∧ (handleAsk enoentEnv (some (JVal.jstr "ping")) []).2
      ≠ Reply.serverError "spawn gemini ENOENT" := by
  decide

theorem writeOutcome_rm_indep (root : Path) (mk : Except String String)
    (we : Attachment → Option String) (ex : ExecaOutcome) (rm rm' : Option String)
    (td : Path) (files : List Attachment) :
    writeOutcome ⟨root, mk, we, ex, rm⟩ td files = writeOutcome ⟨root, mk, we, ex, rm'⟩ td files := by
  induction files with
  | nil => rfl
  | cons f rest ih =>
    cases h : we f with
    | some m => simp [writeOutcome, h]
    | none => simp [writeOutcome, h, ih]

theorem runTask_result_rm_indep (root : Path) (mk : Except String String)
    (we : Attachment → Option String) (ex : ExecaOutcome) (rm rm' : Option String)
    (p : String) (files : List Attachment) :
    (runTask ⟨root, mk, we, ex, rm⟩ p files).2 = (runTask ⟨root, mk, we, ex, rm'⟩ p files).2 := by
  cases mk with
  | error e => rfl
  | ok suf =>
    simp only [runTask, runTaskInDir,
      writeOutcome_rm_indep root (Except.ok suf) we ex rm rm' (root.join ("gemini-" ++ suf)) files]
    cases (writeOutcome ⟨root, Except.ok suf, we, ex, rm'⟩ (root.join ("gemini-" ++ suf)) files).2 with
    | some msg => rfl
    | none => cases ex <;> rfl

/-- C7: the reply of an invocation never depends on whether the working
directory removal succeeded; when removal fails a warning event is
logged; and in the concrete successful run with a failing removal the
reply is still the 200 with the tool output. -/
theorem cleanup_failure_only_warns :
    (∀ (root : Path) (mk : Except String String) (we : Attachment → Option String)
        (ex : ExecaOutcome) (e : String) (pf : Option JVal) (files : List Attachment),
        (handleAsk ⟨root, mk, we, ex, some e⟩ pf files).2
          = (handleAsk ⟨root, mk, we, ex, none⟩ pf files).2)
  ∧ (∀ (env : FsEnv) (p : String) (files : List Attachment) (e suf : String),
        env.rmErr = some e → env.mkdtempSuffix = Except.ok suf →
        FsEvent.warnCleanupFailed (env.tmpRoot.join ("gemini-" ++ suf)) ∈ (runTask env p files).1)
  ∧ (handleAsk pongRmFailEnv (some (JVal.jstr "ping")) []).2 = Reply.ok ⟨"pong", 0, none, none⟩ := by
  refine ⟨?_, ?_, by decide⟩
  · intro root mk we ex e pf files
    cases pf with
    | none => rfl
    | some v =>
      cases hv : ajvCoerceToString v with
      | none => simp [handleAsk, hv]
      | some prompt =>
        by_cases hp : strTrim prompt = ""
        · simp [handleAsk, hv, hp]
        · simp only [handleAsk, hv, if_neg hp]
          exact congrArg replyOf (runTask_result_rm_indep root mk we ex (some e) none prompt files)
  · intro env p files e suf hrm hmk
    rw [show runTask env p files = runTaskInDir env p files (env.tmpRoot.join ("gemini-" ++ suf)) by
          simp [runTask, hmk]]
    generalize env.tmpRoot.join ("gemini-" ++ suf) = td
    have hfin : FsEvent.warnCleanupFailed td ∈ finallyEvents env td := by
      simp [finallyEvents, hrm]
    cases hw : (writeOutcome env td files).2 with
    | some msg =>
      simp only [runTaskInDir, hw]
      rw [List.mem_append]
      exact Or.inr hfin
    | none =>
      cases hex : env.execa <;>
        · simp only [runTaskInDir, hw, hex]
          rw [List.mem_append]
          exact Or.inr hfin

/-- C7 witness: the warning conjunct applied to the concrete failing
removal environment. -/
theorem cleanup_failure_only_warns_witness :
    FsEvent.warnCleanupFailed (pongRmFailEnv.tmpRoot.join ("gemini-" ++ "abc123"))
      ∈ (runTask pongRmFailEnv "ping" []).1 :=
  cleanup_failure_only_warns.2.1 pongRmFailEnv "ping" [] "EACCES" "abc123" rfl rfl

theorem qstep_preserves_bound {c : Nat} {s t : QueueState}
    (h : QStep c s t) (hb : s.running.length ≤ c) : t.running.length ≤ c := by
  cases h with
  | start id w f r hlt => simp; omega
  | advance w f pre post id ph more => simp_all
  | finish w f pre post id => simp_all; omega

/-- C1: from any run of N simultaneous submissions with N exceeding the
concurrency bound, every reachable queue state has at most
maxConcurrency tasks holding a slot, where a task holds its slot through
all phases from directory creation to teardown. -/
theorem admission_queue_bound (c : Nat) (ids : List Nat) (s : QueueState)
    (_hN : c < ids.length) (hreach : QReachable c (initialState ids) s) :
    s.running.length ≤ c := by
  induction hreach with
  | refl => simp [initialState]
  | step hr hstep ih => exact qstep_preserves_bound hstep ih

/-- C1 witness: with bound 1 and two submissions, the state reached
after starting the first task respects the bound. -/
theorem admission_queue_bound_witness :
    (QueueState.mk [1] [RunningTask.mk 0 invocationPhases] []).running.length ≤ 1 :=
  admission_queue_bound 1 [0, 1] _ (by decide)
    (QReachable.step QReachable.refl (QStep.start 0 [1] [] [] (by decide)))

/-- The concrete startup-pass environment with two stale prefixed
directories, the first of which fails to be removed. -/
def twoStaleEnv : CleanupEnv :=
  { readdirResult := Except.ok ["gemini-aaa", "gemini-bbb", "other"],
    rmFails := fun d => d == "gemini-aaa" }

/-- C8: with a readable scratch root, the removal attempts of the
startup pass are exactly the entries whose names start with gemini-,
whichever individual removals fail, an empty match list yields
no removals, and the start sequence completes the cleanup pass before
the server starts listening. -/
theorem orphan_reaper_pass :
    (∀ (env : CleanupEnv) (root : Path) (entries : List String),
        env.readdirResult = Except.ok entries →
        (cleanupOrphanedDirectories env root).map Prod.fst
          = (entries.filter (fun e => strStartsWith e "gemini-")).map (fun d => root.join d)
        ∧ (entries.filter (fun e => strStartsWith e "gemini-") = [] →
            cleanupOrphanedDirectories env root = []))
  ∧ (∃ i j, i < j ∧ startSequence.get? i = some StartupEvent.cleanupOrphans
        ∧ startSequence.get? j = some StartupEvent.listen) := by
  constructor
  · intro env root entries h
    constructor
    · cases hf : entries.filter (fun e => strStartsWith e "gemini-") with
      | nil => simp [cleanupOrphanedDirectories, h, hf]
      | cons x xs => simp [cleanupOrphanedDirectories, h, hf, List.map_map, Function.comp]
    · intro hf
      simp [cleanupOrphanedDirectories, h, hf]
  · exact ⟨0, 2, by omega, rfl, rfl⟩

/-- C8 witness: the pass over two stale prefixed directories, with the
first removal failing, still attempts exactly the two prefixed
entries. -/
theorem orphan_reaper_pass_witness :
    (cleanupOrphanedDirectories twoStaleEnv ⟨true, ["tmp"]⟩).map Prod.fst
      = ((["gemini-aaa", "gemini-bbb", "other"].filter (fun e => strStartsWith e "gemini-")).map
          (fun d => (Path.mk true ["tmp"]).join d))
  ∧ (["gemini-aaa", "gemini-bbb", "other"].filter (fun e => strStartsWith e "gemini-") = [] →
      cleanupOrphanedDirectories twoStaleEnv ⟨true, ["tmp"]⟩ = []) :=
  orphan_reaper_pass.1 twoStaleEnv ⟨true, ["tmp"]⟩ ["gemini-aaa", "gemini-bbb", "other"] rfl

/-- C9: the configuration layer parses the supplied maximum-concurrency
and timeout values, but the process-wide queue is built with the default
concurrency 5 and the route passes the literal 30000 to execa, so the
configured pair (7, 1000) is not what the running system uses. -/
theorem config_values_not_consumed :
    (mkServerConfig "3000" "127.0.0.1" "7" "1000").maxConcurrentRequests = some 7
  ∧ (mkServerConfig "3000" "127.0.0.1" "7" "1000").requestTimeout = some 1000
  ∧ defaultQueueConcurrency = 5
  ∧ geminiTimeoutMs = 30000
  ∧ FsEvent.execStart "gemini" ["--sandbox"] "ping" gdir 30000 ∈ (runTask pongEnv "ping" []).1
  ∧ (7 : Int) ≠ 5 ∧ (1000 : Int) ≠ 30000 := by
  decide

/-- C10: a JSON number prompt is coerced to its decimal string by the
schema layer, passes the handler's non-empty check, and that string is
delivered to the tool on stdin, while the handler's 400 message for a
missing prompt still claims the prompt must be a non-empty string. -/
theorem numeric_prompt_coerced :
    ajvCoerceToString (JVal.jnum 123) = some "123"
  ∧ (handleAsk pongEnv (some (JVal.jnum 123)) []).2 = Reply.ok ⟨"pong", 0, none, none⟩
  ∧ FsEvent.execStart "gemini" ["--sandbox"] "123" gdir 30000
      ∈ (handleAsk pongEnv (some (JVal.jnum 123)) []).1
  ∧ (handleAsk pongEnv none []).2 = Reply.badRequest "Prompt is required and must be a non-empty string" := by
  decide

/-- C5 counterexample: with the attachment name dot-dot slash dot-dot
slash etc slash passwd, the invocation writes outside its working
directory — the written path is the normalized join, which lands at the
filesystem root's etc directory, not inside the gemini working
directory. -/
theorem attachment_escape_counterexample :
    FsEvent.writeFile (Path.mk true ["etc", "passwd"]) [104, 105]
        ∈ (runTask pongEnv "read it" [⟨"../../etc/passwd", "aGk="⟩]).1
  ∧ (Path.mk true ["etc", "passwd"]) = gdir.join "../../etc/passwd"
  ∧ (Path.mk true ["etc", "passwd"]).inside gdir = false := by
  decide

theorem foldl_normStep_clean (ab : Bool) (l : List String)
    (hl : ∀ s ∈ l, ¬(s = "" ∨ s = "." ∨ s = "..")) (acc : List String) :
    l.foldl (normStep ab) acc = l.reverse ++ acc := by
  induction l generalizing acc with
  | nil => simp
  | cons s rest ih =>
    have hs := hl s (List.mem_cons_self s rest)
    push_neg at hs
    have hrest : ∀ x ∈ rest, ¬(x = "" ∨ x = "." ∨ x = "..") :=
      fun x hx => hl x (List.mem_cons_of_mem s hx)
    rw [List.foldl_cons,
        show normStep ab acc s = s :: acc by simp [normStep, hs.1, hs.2.1, hs.2.2],
        ih hrest]
    simp

theorem foldl_normStep_no_dotdot (ab : Bool) (l : List String)
    (hl : ∀ s ∈ l, s ≠ "..") (acc : List String) :
    l.foldl (normStep ab) acc
      = (l.filter (fun s => !(s == "" || s == "."))).reverse ++ acc := by
  induction l generalizing acc with
  | nil => simp
  | cons s rest ih =>
    have hs : s ≠ ".." := hl s (List.mem_cons_self s rest)
    have hrest : ∀ x ∈ rest, x ≠ ".." := fun x hx => hl x (List.mem_cons_of_mem s hx)
    rw [List.foldl_cons]
    by_cases h1 : s = "" ∨ s = "."
    · rw [show normStep ab acc s = acc by simp [normStep, h1], ih hrest]
      rcases h1 with h | h <;> simp [List.filter_cons, h]
    · push_neg at h1
      rw [show normStep ab acc s = s :: acc by simp [normStep, h1.1, h1.2, hs], ih hrest]
      simp [List.filter_cons, h1.1, h1.2]

theorem path_join_clean_dir (d : Path) (name : String)
    (hd : ∀ s ∈ d.segs, ¬(s = "" ∨ s = "." ∨ s = ".."))
    (hn : ∀ s ∈ splitOnSlash name, s ≠ "..") :
    (d.join name).segs
      = d.segs ++ (splitOnSlash name).filter (fun s => !(s == "" || s == ".")) := by
  simp only [Path.join]
  rw [List.foldl_append, foldl_normStep_clean d.absolute d.segs hd [],
      foldl_normStep_no_dotdot d.absolute (splitOnSlash name) hn (d.segs.reverse ++ [])]
  simp

theorem join_inside_of_safe_name (d : Path) (name : String)
    (hd : ∀ s ∈ d.segs, ¬(s = "" ∨ s = "." ∨ s = ".."))
    (hn : ∀ s ∈ splitOnSlash name, s ≠ "..")
    (hne : ∃ s ∈ splitOnSlash name, ¬(s = "" ∨ s = ".")) :
    (d.join name).inside d = true := by
  have hseg := path_join_clean_dir d name hd hn
  obtain ⟨s, hsmem, hs⟩ := hne
  push_neg at hs
  have hfm : s ∈ (splitOnSlash name).filter (fun x => !(x == "" || x == ".")) :=
    List.mem_filter.mpr ⟨hsmem, by simp [hs.1, hs.2]⟩
  have habs : (d.join name).absolute = d.absolute := rfl
  generalize hL : (splitOnSlash name).filter (fun x => !(x == "" || x == ".")) = L at hseg hfm
  have hlen : 0 < L.length := List.length_pos.mpr (List.ne_nil_of_mem hfm)
  simp [Path.inside, hseg, habs, List.take_left, List.length_append]
  omega

/-- C5 (amended): every attachment write targets the verbatim join of
the invocation's own working directory and the attachment name, and a
name whose slash-separated segments contain no dot-dot (and at least one
real segment) always lands strictly inside the working directory; a name
containing dot-dot segments, however, can escape the working directory,
as the counterexample shows. -/
theorem attachment_write_paths :
    (∀ (env : FsEnv) (p : String) (files : List Attachment) (suf : String)
        (pth : Path) (bs : List Nat),
        env.mkdtempSuffix = Except.ok suf →
        FsEvent.writeFile pth bs ∈ (runTask env p files).1 →
        ∃ f ∈ files, pth = (env.tmpRoot.join ("gemini-" ++ suf)).join f.fileName
          ∧ bs = bufferFromBase64 f.data)
  ∧ (∀ (d : Path) (name : String),
        (∀ s ∈ d.segs, ¬(s = "" ∨ s = "." ∨ s = "..")) →
        (∀ s ∈ splitOnSlash name, s ≠ "..") →
        (∃ s ∈ splitOnSlash name, ¬(s = "" ∨ s = ".")) →
        (d.join name).inside d = true) := by
  constructor
  · intro env p files suf pth bs hmk hmem
    rw [show runTask env p files = runTaskInDir env p files (env.tmpRoot.join ("gemini-" ++ suf)) by
          simp [runTask, hmk]] at hmem
    generalize htd : env.tmpRoot.join ("gemini-" ++ suf) = td at hmem ⊢
    have hwr : FsEvent.writeFile pth bs ∈ (writeOutcome env td files).1 →
        ∃ f ∈ files, pth = td.join f.fileName ∧ bs = bufferFromBase64 f.data := by
      clear hmem
      induction files with
      | nil => simp [writeOutcome]
      | cons f rest ih =>
        intro h
        cases hw : env.writeErr f with
        | some m => simp [writeOutcome, hw] at h
        | none =>
          simp only [writeOutcome, hw, List.mem_cons] at h
          rcases h with h | h
          · rw [FsEvent.writeFile.injEq] at h
            exact ⟨f, List.mem_cons_self f rest, h.1, h.2⟩
          · obtain ⟨g, hg, h1, h2⟩ := ih h
            exact ⟨g, List.mem_cons_of_mem f hg, h1, h2⟩
    have hfin : FsEvent.writeFile pth bs ∉ finallyEvents env td := by
      cases h : env.rmErr <;> simp [finallyEvents, h]
    cases hw : (writeOutcome env td files).2 with
    | some msg =>
      simp only [runTaskInDir, hw] at hmem
      rw [List.mem_append, List.mem_cons] at hmem
      rcases hmem with (h | h) | h
      · simp at h
      · exact hwr h
      · exact absurd h hfin
    | none =>
      cases hex : env.execa <;>
        · simp only [runTaskInDir, hw, hex] at hmem
          rw [List.mem_append, List.mem_append, List.mem_cons] at hmem
          rcases hmem with ((h | h) | h) | h
          · simp at h
          · exact hwr h
          · simp at h
          · exact absurd h hfin
  · exact join_inside_of_safe_name

/-- C5 witness: a plain relative attachment name stays inside the
concrete working directory, and the concrete attachment write of the
example run is the join of the working directory and the name. -/
theorem attachment_write_paths_witness :
    (∃ f ∈ [Attachment.mk "a.txt" "aGk="],
        gdir.join "a.txt" = (pongEnv.tmpRoot.join ("gemini-" ++ "abc123")).join f.fileName
        ∧ ([104, 105] : List Nat) = bufferFromBase64 f.data)
  ∧ ((Path.mk true ["tmp", "gemini-abc123"]).join "notes/a.txt").inside
      (Path.mk true ["tmp", "gemini-abc123"]) = true :=
  ⟨attachment_write_paths.1 pongEnv "summarize" [⟨"a.txt", "aGk="⟩] "abc123"
      (gdir.join "a.txt") [104, 105] rfl (by decide),
   attachment_write_paths.2 ⟨true, ["tmp", "gemini-abc123"]⟩ "notes/a.txt"
      (by decide) (by decide) (by decide)⟩

end RemoteTestingTools
